import Mathlib

/-!
Verification of the thumbnail_maker repository (thumb.py) against its
natural-language specification.  The program is shallowly embedded:

* a decoded frame is modelled by its numpy shape, a triple
  (height, width, channels), since every property under test depends only
  on frame dimensions;
* machine floats (fps, durations, timestamps) are modelled by rationals;
* Python round (round half to even) is modelled by pyRound, Python int()
  truncation of a nonnegative value by the natural-number floor, and
  int(x ** 0.5) by Nat.sqrt of the floor (for nonnegative real x one has
  floor (sqrt x) = floor (sqrt (floor x)), which Nat.sqrt computes);
* cv2 calls that can raise cv2.error (hconcat, vconcat) return Option,
  none standing for the raised error;
* cap.read() is a function from frame index to Option FrameShape, none
  standing for a failed read, and cap.set(CAP_PROP_POS_FRAMES, i) is the
  index at which that function is consulted;
* each terminal outcome of create_thumbnail_grid records whether
  cap.release() was executed on that exit path.
-/

/-- Numpy frame.shape: (height, width, channels). -/
abbrev FrameShape : Type := ℕ × ℕ × ℕ

/-- thumb.py, check_frame_dimensions (lines 8-11): the set of the shapes of
the frames has exactly one element. -/
def check_frame_dimensions (frames : List FrameShape) : Bool :=
  frames.dedup.length == 1

/-- cv2.hconcat: succeeds iff the list is nonempty and all frames share
height and channel count; the widths add up.  none models a raised
cv2.error. -/
def hconcat : List FrameShape → Option FrameShape
  | [] => none
  | s :: rest =>
    if rest.all (fun t => t.1 == s.1 && t.2.2 == s.2.2) then
      some (s.1, s.2.1 + (rest.map (fun t => t.2.1)).sum, s.2.2)
    else none

/-- cv2.vconcat: succeeds iff the list is nonempty and all frames share
width and channel count; the heights add up.  none models a raised
cv2.error. -/
def vconcat : List FrameShape → Option FrameShape
  | [] => none
  | s :: rest =>
    if rest.all (fun t => t.2.1 == s.2.1 && t.2.2 == s.2.2) then
      some (s.1 + (rest.map (fun t => t.1)).sum, s.2.1, s.2.2)
    else none

/-- Python round: nearest integer, ties to even. -/
def pyRound (q : ℚ) : ℤ :=
  let f := ⌊q⌋
  let r := q - f
  if r < 1/2 then f
  else if 1/2 < r then f + 1
  else if f % 2 = 0 then f else f + 1

/-- Number of loop iterations of find_closest_numbers (line 151):
range(1, int(target ** 0.5) + 2) has int(target ** 0.5) + 1 elements. -/
def searchCount (target : ℚ) : ℕ :=
  Nat.sqrt (⌊target⌋.toNat) + 1

/-- The tested (i, j) pairs of find_closest_numbers (lines 151-152) in
iteration order: i runs over 1 .. int(target ** 0.5) + 1 and
j = round(target / i). -/
def candList (target : ℚ) : List (ℤ × ℤ) :=
  (List.range' 1 (searchCount target)).map
    (fun (i : ℕ) => ((i : ℤ), pyRound (target / (i : ℚ))))

/-- thumb.py line 156: the stored pair is (max(i, j), min(i, j)). -/
def bestOf (p : ℤ × ℤ) : ℤ × ℤ :=
  (max p.1 p.2, min p.1 p.2)

/-- thumb.py line 153: difference = abs(i - j). -/
def diffOf (p : ℤ × ℤ) : ℕ :=
  (p.1 - p.2).natAbs

/-- One iteration of the find_closest_numbers loop (lines 151-157).  The
state is None / (closest_pair, closest_difference); any difference is
below the initial float inf, so the first candidate always replaces
None. -/
def fcnStep (st : Option ((ℤ × ℤ) × ℕ)) (p : ℤ × ℤ) : Option ((ℤ × ℤ) × ℕ) :=
  match st with
  | none => some (bestOf p, diffOf p)
  | some (b, bd) => if diffOf p < bd then some (bestOf p, diffOf p) else some (b, bd)

/-- thumb.py, find_closest_numbers (lines 147-159). -/
def find_closest_numbers (target : ℚ) : Option (ℤ × ℤ) :=
  ((candList target).foldl fcnStep none).map (fun x => x.1)

/-- thumb.py lines 70-76: aspect_ratio = width / height,
target_width = int(max(400, int(cap.get(3) // columns))), and
target_height = int(target_width / aspect_ratio); for nonnegative values
Python int() truncation is the floor, so both divisions are natural
number divisions.  cv2.resize keeps the channel count.  The timestamp
overlay (cv2.putText, lines 78-87) mutates pixels only, never the shape,
so it is dropped from the shape-level model. -/
def resizeShape (W cols : ℕ) (s : FrameShape) : FrameShape :=
  let tw := max 400 (W / cols)
  (tw * s.1 / s.2.1, tw, s.2.2)

/-- thumb.py line 79: divmod(current_frame, fps); the first component is
bound to timestamp_seconds and the second is passed to timedelta as its
milliseconds argument (line 80). -/
def timestampParts (current_frame : ℕ) (fps : ℚ) : ℤ × ℚ :=
  (⌊(current_frame : ℚ) / fps⌋,
    (current_frame : ℚ) - ⌊(current_frame : ℚ) / fps⌋ * fps)

/-- Modelled from the spec for comparison with timestampParts: the
timestamp of a sample is current_frame / frameRate and the displayed
fractional part is its sub-second remainder expressed in milliseconds. -/
def specMilliseconds (current_frame : ℕ) (fps : ℚ) : ℚ :=
  ((current_frame : ℚ) / fps - ⌊(current_frame : ℚ) / fps⌋) * 1000

/-- Modelled from the spec for comparison with resizeShape: target width
is max(400, sourceWidth / columns) cast to integer. -/
def specTargetWidth (W cols : ℕ) : ℕ :=
  ⌊max (400 : ℚ) ((W : ℚ) / (cols : ℚ))⌋₊

/-- Modelled from the spec for comparison with resizeShape: target height
is round(target width / aspect ratio) with aspect ratio = width / height. -/
def specTargetHeight (W cols h w : ℕ) : ℤ :=
  pyRound ((specTargetWidth W cols : ℚ) / ((w : ℚ) / (h : ℚ)))

/-- thumb.py line 43: video_length_minutes = total_frames / (fps * 60). -/
def video_length_minutes (total_frames : ℕ) (fps : ℚ) : ℚ :=
  (total_frames : ℚ) / (fps * 60)

/-- thumb.py lines 46-47: the duration is clamped to at least 1 minute. -/
def clamped_length (total_frames : ℕ) (fps : ℚ) : ℚ :=
  if video_length_minutes total_frames fps < 1 then 1
  else video_length_minutes total_frames fps

/-- thumb.py line 51: frame_interval = max(1, total_frames // (cols * rows)). -/
def frame_interval_of (total_frames cols rows : ℕ) : ℕ :=
  max 1 (total_frames / (cols * rows))

/-- Frame indices passed to cap.set for one row of the sampling loop
(lines 61-66): the running current_frame advances by the interval after
every attempt, so slot j of a row starting at cur is read at cur + j*v. -/
def visitedRow (cols cur v : ℕ) : List ℕ :=
  (List.range cols).map (fun j => cur + j * v)

/-- One row of the sampling loop (lines 61-93): read each slot, keep and
annotate (resize + overlay) the successful reads, drop failed reads. -/
def sampleRow (read : ℕ → Option FrameShape) (ann : FrameShape → FrameShape)
    (cols cur v : ℕ) : List FrameShape :=
  (List.range cols).filterMap (fun j => (read (cur + j * v)).map ann)

/-- All frame indices visited by the sampling loop, row by row. -/
def visitedRows (cols v : ℕ) : ℕ → ℕ → List ℕ
  | 0, _ => []
  | r + 1, cur => visitedRow cols cur v ++ visitedRows cols v r (cur + cols * v)

/-- All sampled rows of the loop, row by row. -/
def sampleRows (read : ℕ → Option FrameShape) (ann : FrameShape → FrameShape)
    (cols v : ℕ) : ℕ → ℕ → List (List FrameShape)
  | 0, _ => []
  | r + 1, cur =>
    sampleRow read ann cols cur v :: sampleRows read ann cols v r (cur + cols * v)

/-- thumb.py lines 96-104: if row_frames is nonempty and the shapes agree,
hconcat is attempted; a raised cv2.error (modelled by the outer none)
writes the placeholder and returns.  Otherwise the row is skipped with no
exception: some none means no row image appended, some (some s) means row
image s appended. -/
def rowStep (row_frames : List FrameShape) : Option (Option FrameShape) :=
  if !row_frames.isEmpty && check_frame_dimensions row_frames then
    match hconcat row_frames with
    | some s => some (some s)
    | none => none
  else
    some none

/-- The row loop of lines 59-104 applied to already-sampled row frame
lists: accumulate row images, abort (none) when rowStep raises. -/
def assembleRows : List (List FrameShape) → List FrameShape → Option (List FrameShape)
  | [], acc => some acc.reverse
  | rf :: rest, acc =>
    match rowStep rf with
    | none => none
    | some none => assembleRows rest acc
    | some (some s) => assembleRows rest (s :: acc)

/-- Terminal outcomes of create_thumbnail_grid after the source opened:
persisted grid written, placeholder 1x1 black image written, grid_image
empty (logged, nothing written), zero fps / zero frames (logged, nothing
written), or an uncaught Python error (subscripting None). -/
inductive Outcome where
  | persisted (s : FrameShape)
  | placeholderOut
  | emptyGridError
  | openFailed
  | crashed
deriving DecidableEq

/-- thumb.py lines 106-129: if rows is nonempty the code inspects
set(frame.shape for frame in rows[0]) - the scanlines of the FIRST row
image, each a (width, channels) slice, so the set has one element exactly
when that image has nonzero height - and then vconcats all rows; a raised
cv2.error writes the placeholder and returns before cap.release()
(line 122).  On the other paths cap.release() runs, then either the grid
is written or grid_image is empty and only an error is printed.  The
Bool records whether cap.release() ran. -/
def finishGrid : List FrameShape → Outcome × Bool
  | [] => (Outcome.emptyGridError, true)
  | r :: rest =>
    if r.1 != 0 then
      match vconcat (r :: rest) with
      | some g => (Outcome.persisted g, true)
      | none => (Outcome.placeholderOut, false)
    else
      (Outcome.emptyGridError, true)

/-- Lines 96-119 packaged over sampled row lists: assemble the rows, then
finish; a rowStep abort writes the placeholder and returns before
cap.release(). -/
def assembleAndFinish (rowLists : List (List FrameShape)) : Outcome × Bool :=
  match assembleRows rowLists [] with
  | none => (Outcome.placeholderOut, false)
  | some rs => finishGrid rs

/-- The fused sampling / row-assembly loop of lines 55-104: sample a row,
run rowStep on it, continue with the next row start index. -/
def rowsLoop (read : ℕ → Option FrameShape) (ann : FrameShape → FrameShape)
    (cols v : ℕ) : ℕ → ℕ → List FrameShape → Option (List FrameShape)
  | 0, _, acc => some acc.reverse
  | r + 1, cur, acc =>
    match rowStep (sampleRow read ann cols cur v) with
    | none => none
    | some none => rowsLoop read ann cols v r (cur + cols * v) acc
    | some (some s) => rowsLoop read ann cols v r (cur + cols * v) (s :: acc)

/-- The video source as create_thumbnail_grid sees it after opening: fps,
total frame count, cap.get(3) frame width, and the read function (none
is a failed cap.read at that index). -/
structure Video where
  fps : ℚ
  total_frames : ℕ
  width : ℕ
  read : ℕ → Option FrameShape

/-- thumb.py, create_thumbnail_grid (lines 13-137) from the point where
the source is open.  The existence check and cv2.VideoCapture open are
filesystem I/O outside the model.  grid_size = find_closest_numbers of
the clamped duration; if it were None, subscripting it would raise an
uncaught TypeError (crashed, no release).  The Bool of the result records
whether cap.release() ran on that exit path; the outer except cv2.error
(lines 130-137) is unreachable in the model because hconcat and vconcat
are the only modelled raisers and both are caught inside. -/
def create_thumbnail_grid (v : Video) : Outcome × Bool :=
  if v.fps = 0 ∨ v.total_frames = 0 then (Outcome.openFailed, true)
  else
    match find_closest_numbers (clamped_length v.total_frames v.fps) with
    | none => (Outcome.crashed, false)
    | some g =>
      match rowsLoop v.read (resizeShape v.width g.1.toNat) g.1.toNat
          (frame_interval_of v.total_frames g.1.toNat g.2.toNat) g.2.toNat 0 [] with
      | none => (Outcome.placeholderOut, false)
      | some rs => finishGrid rs

/-- thumb.py line 169: the literal suffix tuple; the m4v entry has no
leading dot. -/
def video_exts : List (List Char) :=
  [".mp4".data, ".avi".data, ".mkv".data, ".mov".data, "m4v".data]

/-- thumb.py line 169: file.lower().endswith(tuple). -/
def isVideoFile (file : List Char) : Bool :=
  video_exts.any (fun e => e.isSuffixOf (file.map Char.toLower))

/-- thumb.py line 169: the filtered file list of process_videos_in_directory. -/
def video_files (files : List (List Char)) : List (List Char) :=
  files.filter isVideoFile

/-- Concrete video for the C1 scenario: 30 fps, 16200 frames (9 minutes,
grid 3x3, interval 1800), source width 1200; the three reads of row 0
decode to heights 100, 101, 100 at width 400 (which resizing at
target width 400 keeps), all later reads fail. -/
def vC1 : Video :=
  ⟨30, 16200, 1200, fun i =>
    if i = 0 then some (100, 400, 3)
    else if i = 1800 then some (101, 400, 3)
    else if i = 3600 then some (100, 400, 3)
    else none⟩

/-- Concrete video for the C3 scenario: 30 fps, 7200 frames (4 minutes,
grid 2x2, interval 1800), source width 800; row 0 reads two uniform
frames, row 1 reads one frame and then fails, so the two row images have
widths 800 and 400 and vconcat raises. -/
def vC3 : Video :=
  ⟨30, 7200, 800, fun i =>
    if i = 5400 then none
    else if i = 0 ∨ i = 1800 ∨ i = 3600 then some (100, 400, 3)
    else none⟩

example : rowStep [(100, 400, 3), (101, 400, 3), (100, 400, 3)] = some none := by decide
example : finishGrid [(100, 800, 3), (101, 800, 3)] = (Outcome.persisted (201, 800, 3), true) := by decide
example : finishGrid [(100, 800, 3), (100, 400, 3)] = (Outcome.placeholderOut, false) := by decide
example : resizeShape 401 1 (9, 16, 3) = (225, 401, 3) := by decide

/-! Shared concrete evaluation lemmas. -/

lemma sqrt_nine : Nat.sqrt 9 = 3 :=
  (Nat.eq_sqrt.mpr (by norm_num)).symm

lemma sqrt_four : Nat.sqrt 4 = 2 :=
  (Nat.eq_sqrt.mpr (by norm_num)).symm

lemma sqrt_one_eval : Nat.sqrt 1 = 1 :=
  (Nat.eq_sqrt.mpr (by norm_num)).symm

lemma sqrt_zero_eval : Nat.sqrt 0 = 0 :=
  (Nat.eq_sqrt.mpr (by norm_num)).symm

lemma searchCount_nine : searchCount 9 = 4 := by
  rw [searchCount]
  norm_num [show Int.toNat 9 = 9 from rfl, sqrt_nine]

lemma candList_nine : candList 9 = [(1, 9), (2, 4), (3, 3), (4, 2)] := by
  rw [candList, searchCount_nine, show List.range' 1 4 = [1, 2, 3, 4] from rfl]
  simp only [List.map_cons, List.map_nil]
  norm_num [pyRound, Int.fract]

lemma fcn_nine : find_closest_numbers 9 = some (3, 3) := by
  rw [find_closest_numbers, candList_nine]
  decide

lemma searchCount_four : searchCount 4 = 3 := by
  rw [searchCount]
  norm_num [show Int.toNat 4 = 4 from rfl, sqrt_four]

lemma candList_four : candList 4 = [(1, 4), (2, 2), (3, 1)] := by
  rw [candList, searchCount_four, show List.range' 1 3 = [1, 2, 3] from rfl]
  simp only [List.map_cons, List.map_nil]
  norm_num [pyRound, Int.fract]

lemma fcn_four : find_closest_numbers 4 = some (2, 2) := by
  rw [find_closest_numbers, candList_four]
  decide

lemma searchCount_one : searchCount 1 = 2 := by
  rw [searchCount]
  norm_num [show Int.toNat 1 = 1 from rfl, sqrt_one_eval]

lemma candList_one : candList 1 = [(1, 1), (2, 0)] := by
  rw [candList, searchCount_one, show List.range' 1 2 = [1, 2] from rfl]
  simp only [List.map_cons, List.map_nil]
  norm_num [pyRound, Int.fract]

lemma fcn_one : find_closest_numbers 1 = some (1, 1) := by
  rw [find_closest_numbers, candList_one]
  decide

lemma searchCount_twoFifths : searchCount (2/5) = 1 := by
  rw [searchCount]
  norm_num [show Int.toNat 0 = 0 from rfl, sqrt_zero_eval]

lemma candList_twoFifths : candList (2/5) = [(1, 0)] := by
  rw [candList, searchCount_twoFifths, show List.range' 1 1 = [1] from rfl]
  simp only [List.map_cons, List.map_nil]
  norm_num [pyRound, Int.fract]

lemma clamped_vC1 : clamped_length vC1.total_frames vC1.fps = 9 := by
  norm_num [vC1, clamped_length, video_length_minutes]

lemma clamped_vC3 : clamped_length vC3.total_frames vC3.fps = 4 := by
  norm_num [vC3, clamped_length, video_length_minutes]

lemma assembleRows_all_dropped :
    ∀ rowLists : List (List FrameShape),
      (∀ rf ∈ rowLists, rowStep rf = some none) →
      assembleRows rowLists [] = some [] := by
  intro rowLists
  induction rowLists with
  | nil => intro _; rfl
  | cons rf rest ih =>
    intro h
    simp only [assembleRows, h rf (List.mem_cons_self rf rest)]
    exact ih (fun x hx => h x (List.mem_cons_of_mem rf hx))

/-- Claim C1 (corrected): the counterexample.  On the C1 scenario video -
one sampled row with frame heights 100, 101, 100 - the guarded hconcat is
never attempted, the row is silently dropped, the final grid is empty,
and the pipeline exits printing an error WITHOUT writing the 1x1 black
placeholder, contrary to the claim. -/
theorem C1_counterexample :
    create_thumbnail_grid vC1 = (Outcome.emptyGridError, true) ∧
    Outcome.emptyGridError ≠ Outcome.placeholderOut := by
  constructor
  · rw [create_thumbnail_grid, if_neg (by norm_num [vC1]), clamped_vC1, fcn_nine]
    decide
  · decide

/-- Claim C1 (amended): a row whose frames are missing or have mismatched
dimensions is silently dropped by the guarded hconcat step (no exception,
no placeholder); when every row is dropped this way the final grid is
empty and the pipeline releases the source and writes nothing at all,
logging an error instead of a placeholder. -/
theorem C1_amended :
    ∀ rowLists : List (List FrameShape),
      (∀ rf ∈ rowLists, rf = [] ∨ check_frame_dimensions rf = false) →
      (∀ rf ∈ rowLists, rowStep rf = some none) ∧
      assembleAndFinish rowLists = (Outcome.emptyGridError, true) := by
  intro rowLists h
  have hstep : ∀ rf ∈ rowLists, rowStep rf = some none := by
    intro rf hrf
    rcases h rf hrf with h1 | h1
    · subst h1; rfl
    · simp [rowStep, h1]
  exact ⟨hstep, by rw [assembleAndFinish, assembleRows_all_dropped rowLists hstep]; rfl⟩

/-- Witness for C1_amended at the concrete scenario row [100, 101, 100]. -/
theorem C1_amended_witness :
    (∀ rf ∈ [[((100 : ℕ), (400 : ℕ), (3 : ℕ)), (101, 400, 3), (100, 400, 3)]],
        rf = [] ∨ check_frame_dimensions rf = false) ∧
      ((∀ rf ∈ [[((100 : ℕ), (400 : ℕ), (3 : ℕ)), (101, 400, 3), (100, 400, 3)]],
          rowStep rf = some none) ∧
        assembleAndFinish [[((100 : ℕ), (400 : ℕ), (3 : ℕ)), (101, 400, 3), (100, 400, 3)]] =
          (Outcome.emptyGridError, true)) :=
  ⟨by decide,
    C1_amended [[((100 : ℕ), (400 : ℕ), (3 : ℕ)), (101, 400, 3), (100, 400, 3)]] (by decide)⟩

/-- Claim C2 (code_bug): with two row images of heights 100 and 101 (same
width), whose dimensions therefore differ, the code still performs the
vertical concatenation - the dimension check of line 111 inspects the
scanlines of rows[0] instead of the row images - and produces a grid,
where the claim (and the code comment on line 110) say no grid may be
produced and the placeholder must be triggered. -/
theorem C2_vconcat_bug :
    finishGrid [(100, 800, 3), (101, 800, 3)] = (Outcome.persisted (201, 800, 3), true) ∧
    ((100, 800, 3) : FrameShape) ≠ (101, 800, 3) := by
  decide

/-- Claim C3 (code_bug): on the C3 scenario video the two assembled row
images have widths 800 and 400, vconcat raises, the except handler of
lines 114-119 writes the placeholder and returns BEFORE the
cap.release() of line 122, so the source handle is not released on this
exit path. -/
theorem C3_release_bug :
    create_thumbnail_grid vC3 = (Outcome.placeholderOut, false) := by
  rw [create_thumbnail_grid, if_neg (by norm_num [vC3]), clamped_vC3, fcn_four]
  decide

/-- Claim C4 (code_bug): at current_frame = 45 and fps = 30 the code
computes divmod(45, 30) = (1, 15) and renders 15 as the milliseconds
field, while the sub-second remainder of 45 / 30 expressed in
milliseconds is 500. -/
theorem C4_timestamp_bug :
    timestampParts 45 30 = (1, 15) ∧ specMilliseconds 45 30 = 500 ∧
    (timestampParts 45 30).2 ≠ specMilliseconds 45 30 := by
  norm_num [timestampParts, specMilliseconds]

/-! Lemmas about pyRound and the find_closest_numbers fold. -/

lemma floor_le_pyRound (q : ℚ) : ⌊q⌋ ≤ pyRound q := by
  rw [pyRound]
  split_ifs <;> omega

lemma pyRound_le_floor_add_one (q : ℚ) : pyRound q ≤ ⌊q⌋ + 1 := by
  rw [pyRound]
  split_ifs <;> omega

lemma pyRound_nonneg {q : ℚ} (h : 0 ≤ q) : 0 ≤ pyRound q :=
  le_trans (Int.floor_nonneg.mpr h) (floor_le_pyRound q)

lemma pyRound_pos {q : ℚ} (h : 1 ≤ q) : 1 ≤ pyRound q :=
  le_trans (Int.le_floor.mpr (by exact_mod_cast h)) (floor_le_pyRound q)

lemma pyRound_eq_zero_imp {q : ℚ} (h0 : 0 ≤ q) (h : pyRound q = 0) : q ≤ 1/2 := by
  have hf : 0 ≤ ⌊q⌋ := Int.floor_nonneg.mpr h0
  rw [pyRound] at h
  split_ifs at h with h1 h2 h3
  · have hq : (⌊q⌋ : ℚ) = 0 := by exact_mod_cast h
    linarith
  · omega
  · have hq : (⌊q⌋ : ℚ) = 0 := by exact_mod_cast h
    linarith
  · omega

lemma foldl_fcnStep_spec (l : List (ℤ × ℤ)) :
    ∀ b bd, ∃ b2 bd2,
      l.foldl fcnStep (some (b, bd)) = some (b2, bd2) ∧
      bd2 ≤ bd ∧
      (∀ p ∈ l, bd2 ≤ diffOf p) ∧
      ((b2 = b ∧ bd2 = bd) ∨
        ∃ k, ∃ hk : k < l.length,
          b2 = bestOf (l.get ⟨k, hk⟩) ∧ bd2 = diffOf (l.get ⟨k, hk⟩) ∧ bd2 < bd ∧
          ∀ m, ∀ hm : m < k, bd2 < diffOf (l.get ⟨m, hm.trans hk⟩)) := by
  induction l with
  | nil =>
    intro b bd
    refine ⟨b, bd, rfl, le_refl bd, ?_, Or.inl ⟨rfl, rfl⟩⟩
    intro p hp
    cases hp
  | cons p t ih =>
    intro b bd
    by_cases hp : diffOf p < bd
    · have hstep : fcnStep (some (b, bd)) p = some (bestOf p, diffOf p) := by
        simp [fcnStep, hp]
      obtain ⟨b2, bd2, heq, hle, hall, hcase⟩ := ih (bestOf p) (diffOf p)
      refine ⟨b2, bd2, by rw [List.foldl_cons, hstep]; exact heq,
        le_trans hle (le_of_lt hp), ?_, ?_⟩
      · intro q hq
        rcases List.mem_cons.mp hq with rfl | hq2
        · exact hle
        · exact hall q hq2
      · right
        rcases hcase with ⟨hb2, hbd2⟩ | ⟨k, hk, hb2, hbd2, hlt, hfirst⟩
        · refine ⟨0, Nat.succ_pos t.length, ?_, ?_, ?_, ?_⟩
          · simpa using hb2
          · simpa using hbd2
          · omega
          · intro m hm
            exact absurd hm (Nat.not_lt_zero m)
        · refine ⟨k + 1, Nat.succ_lt_succ hk, ?_, ?_, lt_trans hlt hp, ?_⟩
          · simpa using hb2
          · simpa using hbd2
          · intro m hm
            match m, hm with
            | 0, _ => simpa using lt_of_lt_of_le hlt (le_of_eq rfl)
            | n + 1, hm => simpa using hfirst n (Nat.lt_of_succ_lt_succ hm)
    · have hstep : fcnStep (some (b, bd)) p = some (b, bd) := by
        simp [fcnStep, hp]
      obtain ⟨b2, bd2, heq, hle, hall, hcase⟩ := ih b bd
      have hbdp : bd ≤ diffOf p := Nat.le_of_not_lt hp
      refine ⟨b2, bd2, by rw [List.foldl_cons, hstep]; exact heq, hle, ?_, ?_⟩
      · intro q hq
        rcases List.mem_cons.mp hq with rfl | hq2
        · exact le_trans hle hbdp
        · exact hall q hq2
      · rcases hcase with hsame | ⟨k, hk, hb2, hbd2, hlt, hfirst⟩
        · exact Or.inl hsame
        · right
          refine ⟨k + 1, Nat.succ_lt_succ hk, ?_, ?_, hlt, ?_⟩
          · simpa using hb2
          · simpa using hbd2
          · intro m hm
            match m, hm with
            | 0, _ => simpa using lt_of_lt_of_le hlt hbdp
            | n + 1, hm => simpa using hfirst n (Nat.lt_of_succ_lt_succ hm)

lemma candList_cons (d : ℚ) :
    candList d = ((1 : ℤ), pyRound d) ::
      (List.range' 2 (Nat.sqrt (⌊d⌋.toNat))).map
        (fun (i : ℕ) => ((i : ℤ), pyRound (d / (i : ℚ)))) := by
  rw [candList, searchCount,
    show List.range' 1 (Nat.sqrt (⌊d⌋.toNat) + 1) =
      1 :: List.range' 2 (Nat.sqrt (⌊d⌋.toNat)) from rfl]
  rw [List.map_cons]
  norm_num

lemma mem_candList {d : ℚ} {p : ℤ × ℤ} (hp : p ∈ candList d) :
    ∃ i : ℕ, 1 ≤ i ∧ p = ((i : ℤ), pyRound (d / (i : ℚ))) := by
  rw [candList] at hp
  obtain ⟨i, hi, rfl⟩ := List.mem_map.mp hp
  exact ⟨i, (List.mem_range'_1.mp hi).1, rfl⟩

lemma selected_snd_pos {d : ℚ} (hd : 1 ≤ d) {i : ℕ} (hi : 1 ≤ i)
    (hmin : diffOf ((i : ℤ), pyRound (d / (i : ℚ))) ≤ diffOf ((1 : ℤ), pyRound d)) :
    1 ≤ pyRound (d / (i : ℚ)) := by
  by_contra hneg
  push_neg at hneg
  have hipos : (0 : ℚ) < (i : ℚ) := by exact_mod_cast hi
  have hq0 : (0 : ℚ) ≤ d / (i : ℚ) := le_of_lt (div_pos (by linarith) hipos)
  have hj0 : pyRound (d / (i : ℚ)) = 0 := le_antisymm (by omega) (pyRound_nonneg hq0)
  have hhalf : d / (i : ℚ) ≤ 1/2 := pyRound_eq_zero_imp hq0 hj0
  have h2d : 2 * d ≤ (i : ℚ) := by
    rw [div_le_iff₀ hipos] at hhalf
    linarith
  have hdq : diffOf ((i : ℤ), pyRound (d / (i : ℚ))) = i := by
    rw [diffOf, hj0]
    simp
  have h1 : 1 ≤ pyRound d := pyRound_pos hd
  have hdp : (diffOf ((1 : ℤ), pyRound d) : ℤ) = pyRound d - 1 := by
    rw [diffOf]
    rw [show ((1 : ℤ), pyRound d).1 - ((1 : ℤ), pyRound d).2 = 1 - pyRound d from rfl]
    rw [← Int.abs_eq_natAbs, abs_of_nonpos (by omega)]
    omega
  have hic : (i : ℤ) ≤ pyRound d - 1 := by
    rw [← hdp]
    exact_mod_cast hdq ▸ hmin
  have hple : pyRound d ≤ ⌊d⌋ + 1 := pyRound_le_floor_add_one d
  have hfle : (⌊d⌋ : ℚ) ≤ d := Int.floor_le d
  have hiq : (i : ℚ) ≤ d := by
    have : (i : ℤ) ≤ ⌊d⌋ := by omega
    have h2 : ((i : ℤ) : ℚ) ≤ (⌊d⌋ : ℚ) := by exact_mod_cast this
    push_cast at h2
    linarith
  linarith

/-- Claim C5: for every duration d at least 1, the grid-size search over
the tested candidate pairs (i, round(d / i)) for i from 1 to
floor(sqrt(d)) + 1 returns (max(i, j), min(i, j)) of some tested
candidate whose difference abs(i - j) is minimal over all tested
candidates, every earlier candidate having a strictly larger difference
(first-found tie-break), and the returned pair satisfies
columns = max >= rows = min >= 1. -/
theorem C5_grid_search (d : ℚ) (hd : 1 ≤ d) :
    ∃ k, ∃ hk : k < (candList d).length,
      find_closest_numbers d =
        some (max ((candList d).get ⟨k, hk⟩).1 ((candList d).get ⟨k, hk⟩).2,
          min ((candList d).get ⟨k, hk⟩).1 ((candList d).get ⟨k, hk⟩).2) ∧
      1 ≤ min ((candList d).get ⟨k, hk⟩).1 ((candList d).get ⟨k, hk⟩).2 ∧
      min ((candList d).get ⟨k, hk⟩).1 ((candList d).get ⟨k, hk⟩).2 ≤
        max ((candList d).get ⟨k, hk⟩).1 ((candList d).get ⟨k, hk⟩).2 ∧
      (∀ p ∈ candList d, diffOf ((candList d).get ⟨k, hk⟩) ≤ diffOf p) ∧
      (∀ m, ∀ hm : m < k,
        diffOf ((candList d).get ⟨k, hk⟩) <
          diffOf ((candList d).get ⟨m, hm.trans hk⟩)) := by
  obtain cl := candList_cons d
  set p1 : ℤ × ℤ := ((1 : ℤ), pyRound d) with hp1
  set t := (List.range' 2 (Nat.sqrt (⌊d⌋.toNat))).map
    (fun (i : ℕ) => ((i : ℤ), pyRound (d / (i : ℚ)))) with ht
  have hfold : (candList d).foldl fcnStep none =
      t.foldl fcnStep (some (bestOf p1, diffOf p1)) := by
    rw [cl, List.foldl_cons]
    rfl
  obtain ⟨b2, bd2, heq, hle, hall, hcase⟩ := foldl_fcnStep_spec t (bestOf p1) (diffOf p1)
  have hresult : find_closest_numbers d = some b2 := by
    rw [find_closest_numbers, hfold, heq]
    rfl
  have hp1mem : p1 ∈ candList d := by rw [cl]; exact List.mem_cons_self p1 t
  have hminall : ∀ p ∈ candList d, bd2 ≤ diffOf p := by
    intro p hp
    rw [cl] at hp
    rcases List.mem_cons.mp hp with rfl | hp2
    · exact hle
    · exact hall p hp2
  rcases hcase with ⟨hb2, hbd2⟩ | ⟨k, hk, hb2, hbd2, hlt, hfirst⟩
  · refine ⟨0, by rw [cl]; exact Nat.succ_pos t.length, ?_, ?_, ?_, ?_, ?_⟩
    · have hget : (candList d).get ⟨0, by rw [cl]; exact Nat.succ_pos t.length⟩ = p1 := by
        simp [cl]
      rw [hget, hresult, hb2]
      rfl
    · have hget : (candList d).get ⟨0, by rw [cl]; exact Nat.succ_pos t.length⟩ = p1 := by
        simp [cl]
      rw [hget]
      have := pyRound_pos hd
      simp only [hp1]
      omega
    · exact min_le_max
    · intro p hp
      have hget : (candList d).get ⟨0, by rw [cl]; exact Nat.succ_pos t.length⟩ = p1 := by
        simp [cl]
      rw [hget, ← hbd2]
      exact hminall p hp
    · intro m hm
      exact absurd hm (Nat.not_lt_zero m)
  · have hk2 : k + 1 < (candList d).length := by
      rw [cl]
      exact Nat.succ_lt_succ hk
    have hget : (candList d).get ⟨k + 1, hk2⟩ = t.get ⟨k, hk⟩ := by
      simp [cl]
    refine ⟨k + 1, hk2, ?_, ?_, ?_, ?_, ?_⟩
    · rw [hget, hresult, hb2]
      rfl
    · rw [hget]
      have hqmem : t.get ⟨k, hk⟩ ∈ candList d := by
        rw [cl]
        exact List.mem_cons_of_mem p1 (List.get_mem t k hk)
      obtain ⟨i, hi1, hqi⟩ := mem_candList hqmem
      have hmin1 : diffOf (t.get ⟨k, hk⟩) ≤ diffOf p1 := by
        rw [← hbd2]
        exact le_of_lt hlt
      rw [hqi] at hmin1 ⊢
      have hsnd := selected_snd_pos hd hi1 hmin1
      have : (1 : ℤ) ≤ (i : ℤ) := by exact_mod_cast hi1
      simp only []
      omega
    · exact min_le_max
    · intro p hp
      rw [hget, ← hbd2]
      exact hminall p hp
    · intro m hm
      rw [hget, ← hbd2]
      match m, hm with
      | 0, hm =>
        have hget0 : (candList d).get ⟨0, hm.trans hk2⟩ = p1 := by
          simp [cl]
        rw [hget0]
        exact hlt
      | n + 1, hm =>
        have hgetn : (candList d).get ⟨n + 1, hm.trans hk2⟩ =
            t.get ⟨n, (Nat.lt_of_succ_lt_succ hm).trans hk⟩ := by
          simp [cl]
        rw [hgetn]
        exact hfirst n (Nat.lt_of_succ_lt_succ hm)

/-- Witness for C5_grid_search at the concrete duration 9. -/
theorem C5_grid_search_witness :
    (1 : ℚ) ≤ 9 ∧
      ∃ k, ∃ hk : k < (candList 9).length,
        find_closest_numbers 9 =
          some (max ((candList 9).get ⟨k, hk⟩).1 ((candList 9).get ⟨k, hk⟩).2,
            min ((candList 9).get ⟨k, hk⟩).1 ((candList 9).get ⟨k, hk⟩).2) ∧
        1 ≤ min ((candList 9).get ⟨k, hk⟩).1 ((candList 9).get ⟨k, hk⟩).2 ∧
        min ((candList 9).get ⟨k, hk⟩).1 ((candList 9).get ⟨k, hk⟩).2 ≤
          max ((candList 9).get ⟨k, hk⟩).1 ((candList 9).get ⟨k, hk⟩).2 ∧
        (∀ p ∈ candList 9, diffOf ((candList 9).get ⟨k, hk⟩) ≤ diffOf p) ∧
        (∀ m, ∀ hm : m < k,
          diffOf ((candList 9).get ⟨k, hk⟩) <
            diffOf ((candList 9).get ⟨m, hm.trans hk⟩)) :=
  ⟨by norm_num, C5_grid_search 9 (by norm_num)⟩

/-! Lemmas about the sampling loop. -/

lemma visitedRows_eq (cols v : ℕ) :
    ∀ r cur, visitedRows cols v r cur =
      (List.range (r * cols)).map (fun k => cur + k * v) := by
  intro r
  induction r with
  | zero => intro cur; simp [visitedRows]
  | succ r ih =>
    intro cur
    simp only [visitedRows, visitedRow, ih (cur + cols * v)]
    rw [show (r + 1) * cols = cols + r * cols by ring]
    rw [List.range_add, List.map_append, List.map_map]
    congr 1
    apply List.map_congr_left
    intro a _
    simp only [Function.comp_apply]
    ring

lemma sampleRow_eq (read : ℕ → Option FrameShape) (ann : FrameShape → FrameShape)
    (cols cur v : ℕ) :
    sampleRow read ann cols cur v =
      (visitedRow cols cur v).filterMap (fun i => (read i).map ann) := by
  rw [sampleRow, visitedRow, List.filterMap_map]
  rfl

lemma sampleRows_flatten (read : ℕ → Option FrameShape) (ann : FrameShape → FrameShape)
    (cols v : ℕ) :
    ∀ r cur, (sampleRows read ann cols v r cur).flatten =
      (visitedRows cols v r cur).filterMap (fun i => (read i).map ann) := by
  intro r
  induction r with
  | zero => intro cur; simp [sampleRows, visitedRows]
  | succ r ih =>
    intro cur
    simp only [sampleRows, visitedRows, List.flatten_cons, List.filterMap_append]
    rw [sampleRow_eq, ih]

lemma rowsLoop_eq_assembleRows (read : ℕ → Option FrameShape) (ann : FrameShape → FrameShape)
    (cols v : ℕ) :
    ∀ r cur acc, rowsLoop read ann cols v r cur acc =
      assembleRows (sampleRows read ann cols v r cur) acc := by
  intro r
  induction r with
  | zero => intro cur acc; rfl
  | succ r ih =>
    intro cur acc
    cases h : rowStep (sampleRow read ann cols cur v) with
    | none => simp only [rowsLoop, sampleRows, assembleRows, h]
    | some o =>
      cases o with
      | none => simp only [rowsLoop, sampleRows, assembleRows, h]; exact ih _ _
      | some s => simp only [rowsLoop, sampleRows, assembleRows, h]; exact ih _ _

/-- Claim C6: with columns cols, rows and frameInterval v, the sampling
loop visits exactly rows*cols positions in row-major order, the k-th
attempt seeking frame index k*v (the counter starts at 0 and advances by
v after every attempt, successful or not); the emitted frames are the
annotated successful reads of exactly those indices in order - a failed
read skips its slot without shifting later slots - so the emitted
sequence has length at most rows*cols; and the fused pipeline loop
consumes exactly these sampled rows. -/
theorem C6_sampling (read : ℕ → Option FrameShape) (ann : FrameShape → FrameShape)
    (cols rows v : ℕ) :
    visitedRows cols v rows 0 = (List.range (rows * cols)).map (fun k => k * v) ∧
    (sampleRows read ann cols v rows 0).flatten =
      (visitedRows cols v rows 0).filterMap (fun i => (read i).map ann) ∧
    (sampleRows read ann cols v rows 0).flatten.length ≤ rows * cols ∧
    (∀ acc, rowsLoop read ann cols v rows 0 acc =
      assembleRows (sampleRows read ann cols v rows 0) acc) := by
  have hv : visitedRows cols v rows 0 = (List.range (rows * cols)).map (fun k => k * v) := by
    rw [visitedRows_eq]
    simp
  refine ⟨hv, sampleRows_flatten read ann cols v rows 0, ?_,
    fun acc => rowsLoop_eq_assembleRows read ann cols v rows 0 acc⟩
  rw [sampleRows_flatten read ann cols v rows 0]
  calc ((visitedRows cols v rows 0).filterMap (fun i => (read i).map ann)).length
      ≤ (visitedRows cols v rows 0).length := List.length_filterMap_le _ _
    _ = rows * cols := by rw [hv]; simp

/-- Claim C7: for totalFrames = 900 and frameRate = 30 the raw duration is
0.5 minutes, clamped to 1; the grid is (1, 1); the frame interval is
max(1, 900 / 1) = 900; and the sampling loop makes exactly one attempt,
at frame index 0. -/
theorem C7_scenario :
    video_length_minutes 900 30 = 1/2 ∧
    clamped_length 900 30 = 1 ∧
    find_closest_numbers (clamped_length 900 30) = some (1, 1) ∧
    frame_interval_of 900 1 1 = 900 ∧
    visitedRows 1 900 1 0 = [0] := by
  have h : clamped_length 900 30 = 1 := by
    norm_num [clamped_length, video_length_minutes]
  refine ⟨by norm_num [video_length_minutes], h, ?_, by norm_num [frame_interval_of], by decide⟩
  rw [h]
  exact fcn_one

/-- Claim C8 (corrected): the counterexample.  For source width 401,
one column and a frame of height 9, width 16 (aspect ratio 16/9), the
code computes target height 225 (truncation of 225.5625) while the claim
requires round(401 / (16/9)) = 226. -/
theorem C8_counterexample :
    resizeShape 401 1 (9, 16, 3) = (225, 401, 3) ∧
    specTargetWidth 401 1 = 401 ∧
    specTargetHeight 401 1 9 16 = 226 ∧
    ((225 : ℤ) ≠ 226) := by
  have hw : specTargetWidth 401 1 = 401 := by
    rw [specTargetWidth]
    norm_num
  refine ⟨by decide, hw, ?_, by decide⟩
  rw [specTargetHeight, hw]
  norm_num [pyRound, Int.fract]

/-- Claim C8 (amended): the resize computes target width exactly as the
claim states - max(400, sourceWidth / columns) cast to integer - but the
target height is target width / aspect ratio truncated to an integer
(floored), not rounded; the aspect ratio is frame width / frame height
and the channel count is preserved. -/
theorem C8_amended (W cols h w ch : ℕ) :
    resizeShape W cols (h, w, ch) =
      (⌊(specTargetWidth W cols : ℚ) / ((w : ℚ) / (h : ℚ))⌋₊, specTargetWidth W cols, ch) := by
  have htw : specTargetWidth W cols = max 400 (W / cols) := by
    have hmax : ⌊max (400 : ℚ) ((W : ℚ) / (cols : ℚ))⌋₊ =
        max ⌊(400 : ℚ)⌋₊ ⌊(W : ℚ) / (cols : ℚ)⌋₊ :=
      Monotone.map_max Nat.floor_mono
    rw [specTargetWidth, hmax, Nat.floor_div_eq_div]
    norm_num
  have hth : ⌊(specTargetWidth W cols : ℚ) / ((w : ℚ) / (h : ℚ))⌋₊ =
      max 400 (W / cols) * h / w := by
    rw [htw, div_div_eq_mul_div]
    rw [show ((max 400 (W / cols) : ℕ) : ℚ) * (h : ℚ) =
      ((max 400 (W / cols) * h : ℕ) : ℚ) by push_cast; ring]
    exact Nat.floor_div_eq_div _ _
  simp only [resizeShape]
  rw [hth, htw]

/-- Claim C9: the directory filter keeps exactly the files whose
lowercased name ends with one of .mp4, .avi, .mkv, .mov or m4v (the m4v
pattern lacking its leading dot); movie.MKV is included, movie.txt is
excluded, clip.m4v is included, and so is any name merely ending in the
three characters m4v. -/
theorem C9_extension_filter :
    (∀ (files : List (List Char)) (f : List Char),
        f ∈ video_files files ↔ f ∈ files ∧ isVideoFile f = true) ∧
    isVideoFile "movie.MKV".data = true ∧
    isVideoFile "movie.txt".data = false ∧
    isVideoFile "clip.m4v".data = true ∧
    (∀ s : List Char, isVideoFile (s ++ "m4v".data) = true) := by
  refine ⟨?_, by decide, by decide, by decide, ?_⟩
  · intro files f
    exact List.mem_filter
  · intro s
    rw [isVideoFile]
    apply List.any_eq_true.mpr
    refine ⟨"m4v".data, by rw [video_exts]; simp, ?_⟩
    rw [List.isSuffixOf_iff_suffix, List.map_append,
      show "m4v".data.map Char.toLower = "m4v".data by decide]
    exact ⟨s.map Char.toLower, rfl⟩

/-- Claim C10: below the clamp applied by the caller, at target 2/5 (with
0 < 2/5 and 2/5 at most 1/2) find_closest_numbers returns (1, 0): the
second component - the row count the pipeline would use - is 0, violating
the rows at least 1 invariant. -/
theorem C10_no_clamp_rows_zero :
    ((0 : ℚ) < 2/5 ∧ (2/5 : ℚ) ≤ 1/2) ∧
    find_closest_numbers (2/5) = some (1, 0) := by
  refine ⟨by norm_num, ?_⟩
  rw [find_closest_numbers, candList_twoFifths]
  decide
